import Mathlib

/-
Shallow embedding of the goldfish command interpreter and zone state machine.

Sources embedded here:
  - src/goldfish-core/src/state/card.rs   (CardType, Card, is_named, is_permanent)
  - src/goldfish-core/src/common.rs       (Specifier, ZoneType, PrintTarget, Statement)
  - src/goldfish-core/src/state.rs        (Zone, State and its operations)
  - src/goldfish-core/src/parse.rs        (Input tokenization and command parsing)
  - src/goldfish/../lib.rs                (Goldfish::exec dispatch)

Modelling conventions:
  - Rust Vec<Card> becomes List Card; Vec::remove(i) becomes List.eraseIdx.
  - A method `&mut self -> Result<()>` becomes `State -> Option String × State`:
    the first component is the error message (none on success) and the second
    component is the state exactly as the Rust code leaves it, including on the
    error paths (Rust `bail!` returns early but keeps all mutations done so far).
  - The HashMap<ZoneType, Zone> with lazily created empty zones is observationally
    a total function from ZoneType to a card list, embedded as a 5-field record.
  - `rand` shuffling is embedded as an explicit shuffle oracle parameter
    `sh : List Card -> List Card`; theorems that need it assume `sh` permutes its
    input, which is the contract of SliceRandom::shuffle.
  - String normalization: Rust str::trim / to_lowercase / split_whitespace are
    embedded structurally over the character list of the string (trim_chars,
    lowercase_chars, words_aux below), on the ASCII fragment of Unicode.
-/

set_option autoImplicit false

namespace Goldfish

/-- Card types, from src/goldfish-core/src/state/card.rs. -/
inductive CardType where
  | Artifact
  | Creature
  | Enchantment
  | Instant
  | Land
  | Planeswalker
  | Sorcery
  deriving DecidableEq, Repr

/-- CardType::is_permanent from state/card.rs lines 33-42. -/
def CardType.is_permanent : CardType → Bool
  | .Artifact | .Creature | .Enchantment | .Land | .Planeswalker => true
  | .Instant | .Sorcery => false

/-- Rust str::trim on the character list of a string: drop whitespace from both
ends (the ASCII whitespace fragment of the Unicode property Rust uses). -/
def trim_chars (cs : List Char) : List Char :=
  ((cs.dropWhile Char.isWhitespace).reverse.dropWhile Char.isWhitespace).reverse

/-- Rust str::to_lowercase on the character list of a string, for the ASCII
fragment via Char.toLower. -/
def lowercase_chars (cs : List Char) : List Char := cs.map Char.toLower

/-- The composition trim-then-lowercase used by Card::is_named. -/
def normalize_chars (cs : List Char) : List Char :=
  lowercase_chars (trim_chars cs)

/-- Card from state/card.rs: a name together with a set of card types.
The Rust HashSet<CardType> is embedded as a list; the only consumer is the
`any` in is_permanent, for which order and multiplicity are irrelevant. -/
structure Card where
  name : String
  types : List CardType
  deriving DecidableEq, Repr

/-- Card::is_named from state/card.rs lines 62-64:
`self.name.trim().to_lowercase() == name.trim().to_lowercase()`. -/
def Card.is_named (c : Card) (name : String) : Bool :=
  normalize_chars c.name.data == normalize_chars name.data

/-- Card::is_permanent from state/card.rs lines 66-68. -/
def Card.is_permanent (c : Card) : Bool :=
  c.types.any CardType.is_permanent

/-- Specifier from common.rs lines 63-67. -/
inductive Specifier where
  | CardName (name : String)
  | Index (i : Nat)
  deriving DecidableEq, Repr

/-- ZoneType from common.rs lines 69-76. -/
inductive ZoneType where
  | Battlefield
  | Deck
  | Exile
  | Graveyard
  | Hand
  deriving DecidableEq, Repr

namespace Zone

/-- Zone::remove_card_by_name from state.rs lines 37-45: scan front to back,
remove the first card whose is_named matches; error when none does.
The Rust loop `for i in 0..len` with `Vec::remove(i)` is the structural
recursion below; `none` stands for the `bail!("not found!")` path. -/
def remove_card_by_name (name : String) : List Card → Option (Card × List Card)
  | [] => none
  | c :: rest =>
    if c.is_named name then some (c, rest)
    else
      match remove_card_by_name name rest with
      | some (found, rest2) => some (found, c :: rest2)
      | none => none

/-- Zone::remove_card_by_index from state.rs lines 47-53: error when the index
is out of range, otherwise Vec::remove(i). -/
def remove_card_by_index (i : Nat) (cards : List Card) : Option (Card × List Card) :=
  if h : i < cards.length then some (cards[i], cards.eraseIdx i) else none

/-- Zone::remove_card from state.rs lines 30-35. -/
def remove_card (spec : Specifier) (cards : List Card) : Option (Card × List Card) :=
  match spec with
  | .CardName name => remove_card_by_name name cards
  | .Index i => remove_card_by_index i cards

end Zone

/-- State from state.rs line 57: the HashMap from ZoneType to Zone, with absent
zones read as empty, embedded as one list of cards per zone. -/
structure State where
  battlefield : List Card
  deck : List Card
  exile : List Card
  graveyard : List Card
  hand : List Card
  deriving DecidableEq, Repr

/-- State::get_zone (state.rs lines 113-115) as a read: a missing zone is the
empty zone, so the lazily inserting entry API reads as a total function. -/
def State.get_zone (st : State) : ZoneType → List Card
  | .Battlefield => st.battlefield
  | .Deck => st.deck
  | .Exile => st.exile
  | .Graveyard => st.graveyard
  | .Hand => st.hand

/-- Writing one zone of the state, the mutation half of get_zone. -/
def State.set_zone (st : State) : ZoneType → List Card → State
  | .Battlefield, cs => { st with battlefield := cs }
  | .Deck, cs => { st with deck := cs }
  | .Exile, cs => { st with exile := cs }
  | .Graveyard, cs => { st with graveyard := cs }
  | .Hand, cs => { st with hand := cs }

/-- Total number of cards across all five zones. -/
def State.total_count (st : State) : Nat :=
  st.battlefield.length + st.deck.length + st.exile.length + st.graveyard.length
    + st.hand.length

/-- State::move_card from state.rs lines 178-203, with the Rust parameters
`from`/`to` renamed `fr`/`dst` (both are Lean keywords or near-keywords).
Note the order of operations taken from the source: the card is removed from
the source zone first, and the permanence check for a Battlefield destination
happens after the removal, on the already-removed card; on that error path the
removed card is dropped. -/
def State.move_card (st : State) (card : Specifier) (fr dst : ZoneType) :
    Option String × State :=
  if fr = dst ∧ dst ≠ ZoneType.Deck then (none, st)
  else
    match Zone.remove_card card (st.get_zone fr) with
    | none => (some "not found!", st)
    | some (c, rest) =>
      let st1 := st.set_zone fr rest
      if dst = ZoneType.Battlefield ∧ c.is_permanent = false then
        (some ("cannot move " ++ c.name
          ++ " to the battlefield because it is not a permanent"), st1)
      else
        (none, st1.set_zone dst (st1.get_zone dst ++ [c]))

/-- State::play_card from state.rs lines 117-127. -/
def State.play_card (st : State) (c : Card) : Option String × State :=
  if c.is_permanent then
    (none, st.set_zone .Battlefield (st.get_zone .Battlefield ++ [c]))
  else
    (none, st.set_zone .Graveyard (st.get_zone .Graveyard ++ [c]))

/-- State::bounce from state.rs lines 129-131. -/
def State.bounce (st : State) (card : Specifier) : Option String × State :=
  st.move_card card .Battlefield .Hand

/-- State::discard from state.rs lines 134-136. -/
def State.discard (st : State) (card : Specifier) : Option String × State :=
  st.move_card card .Hand .Graveyard

/-- State::draw from state.rs lines 139-141. -/
def State.draw (st : State) : Option String × State :=
  st.move_card (.Index 0) .Deck .Hand

/-- State::draw_n from state.rs lines 144-150: n draws in sequence, stopping at
the first failure without undoing the earlier draws. -/
def State.draw_n (st : State) : Nat → Option String × State
  | 0 => (none, st)
  | Nat.succ n =>
    match st.draw with
    | (none, st1) => st1.draw_n n
    | (some e, st1) => (some e, st1)

/-- State::exile from state.rs lines 152-154 (named exile_card here because
State.exile is taken by the zone field projection). -/
def State.exile_card (st : State) (card : Specifier) (fr : ZoneType) :
    Option String × State :=
  st.move_card card fr .Exile

/-- State::shuffle from state.rs lines 215-219, with the thread_rng permutation
supplied as the oracle sh. -/
def State.shuffle (st : State) (sh : List Card → List Card) : State :=
  st.set_zone .Deck (sh (st.get_zone .Deck))

/-- State::fetch from state.rs lines 158-167: remove by name from the deck,
route through play_card, then shuffle. -/
def State.fetch (st : State) (sh : List Card → List Card) (card : String) :
    Option String × State :=
  match Zone.remove_card (.CardName card) (st.get_zone .Deck) with
  | none => (some "not found!", st)
  | some (c, rest) =>
    match (st.set_zone .Deck rest).play_card c with
    | (some e, st1) => (some e, st1)
    | (none, st1) => (none, st1.shuffle sh)

/-- State::mill from state.rs lines 169-175. -/
def State.mill (st : State) : Nat → Option String × State
  | 0 => (none, st)
  | Nat.succ n =>
    match st.move_card (.Index 0) .Deck .Graveyard with
    | (none, st1) => st1.mill n
    | (some e, st1) => (some e, st1)

/-- State::play from state.rs lines 207-212. -/
def State.play (st : State) (card : Specifier) : Option String × State :=
  match Zone.remove_card card (st.get_zone .Hand) with
  | none => (some "not found!", st)
  | some (c, rest) => (st.set_zone .Hand rest).play_card c

/-- State::sacrifice from state.rs lines 260-262. -/
def State.sacrifice (st : State) (card : Specifier) : Option String × State :=
  st.move_card card .Battlefield .Graveyard

/-- State::tuck from state.rs lines 282-284. -/
def State.tuck (st : State) (card : Specifier) (fr : ZoneType) :
    Option String × State :=
  st.move_card card fr .Deck

/-- State::tutor from state.rs lines 286-295. -/
def State.tutor (st : State) (sh : List Card → List Card) (card : String) :
    Option String × State :=
  match st.move_card (.CardName card) .Deck .Hand with
  | (some e, st1) => (some e, st1)
  | (none, st1) => (none, st1.shuffle sh)

/-- All cards of the state in one list, as drained by start_new_game. The Rust
loop iterates HashMap values in an unspecified order; a fixed zone order is
chosen here, and the shuffle that immediately follows absorbs the difference. -/
def State.all_cards (st : State) : List Card :=
  st.battlefield ++ st.deck ++ st.exile ++ st.graveyard ++ st.hand

/-- State::start_new_game from state.rs lines 222-234: drain every zone into
the deck, shuffle, then draw 7. -/
def State.start_new_game (st : State) (sh : List Card → List Card) :
    Option String × State :=
  let st1 : State := ⟨[], st.all_cards, [], [], []⟩
  (st1.shuffle sh).draw_n 7

/-- PrintTarget from common.rs lines 36-41. -/
inductive PrintTarget where
  | Default
  | Exile
  | Graveyard
  deriving DecidableEq, Repr

/-- PrintTarget::parse from common.rs lines 52-60. -/
def PrintTarget.parse (location : String) : Except String PrintTarget :=
  if location = "exile" then .ok .Exile
  else if location = "graveyard" then .ok .Graveyard
  else .error ("`" ++ location ++ "` is not a known location")

/-- ZoneType::parse from common.rs lines 89-100. -/
def ZoneType.parse (location : String) : Except String ZoneType :=
  if location = "battlefield" then .ok .Battlefield
  else if location = "deck" then .ok .Deck
  else if location = "exile" then .ok .Exile
  else if location = "graveyard" then .ok .Graveyard
  else if location = "hand" then .ok .Hand
  else .error ("`" ++ location ++ "` is not a known location")

/-- Statement from common.rs lines 3-34, one variant per verb. The Rust fields
`from`/`to` appear here as positional arguments `fr`/`dst`. -/
inductive Statement where
  | Nop
  | Bounce (card : Specifier)
  | Discard (card : Specifier)
  | Draw (n : Nat)
  | Exile (card : Specifier) (fr : ZoneType)
  | Fetch (name : String)
  | Help
  | Inspect (n : Nat)
  | Load (name : String)
  | Mill (n : Nat)
  | Move (card : Specifier) (fr : ZoneType) (dst : ZoneType)
  | Play (card : Specifier)
  | Print (target : PrintTarget)
  | Restart
  | Sacrifice (card : Specifier)
  | Shuffle
  | Tuck (card : Specifier) (fr : ZoneType)
  | Tutor (name : String)
  deriving DecidableEq, Repr

/-- Character-level worker for str::split_whitespace: accumulate the current
word (reversed) and emit it at each whitespace run or at the end. -/
def words_aux : List Char → List Char → List String
  | [], acc => if acc.isEmpty then [] else [⟨acc.reverse⟩]
  | c :: cs, acc =>
    if c.isWhitespace then
      if acc.isEmpty then words_aux cs [] else ⟨acc.reverse⟩ :: words_aux cs []
    else words_aux cs (c :: acc)

/-- Input::new from parse.rs lines 10-14: str::split_whitespace collected into
tokens, that is, the maximal whitespace-free runs in order. -/
def tokenize (input : String) : List String :=
  words_aux input.data []

/-- Rust slice join with a single space, as in `self.parts.join(" ")`. -/
def join_spaces : List String → String
  | [] => ""
  | [s] => s
  | s :: rest => s ++ " " ++ join_spaces rest

/-- Rust str::parse::<usize> on a digit string: one or more decimal digits
(overflow is not modelled; it plays no part in any claim). -/
def parse_digits (cs : List Char) : Option Nat :=
  if cs.isEmpty then none
  else if cs.all Char.isDigit then
    some (cs.foldl (fun n c => n * 10 + (c.toNat - 48)) 0)
  else none

/-- Input::split_off_at from parse.rs lines 16-27: scan the token list from the
right for the item; when found, the tokens after it are split off and returned,
the item itself discarded, and the tokens before it kept.  The result is
(kept tokens, tokens after the last occurrence), or none when absent. -/
def split_off_at : List String → String → Option (List String × List String)
  | [], _ => none
  | p :: ps, item =>
    match split_off_at ps item with
    | some (kept, rest) => some (p :: kept, rest)
    | none => if p = item then some ([], ps) else none

/-- Rust `str::parse::<usize>()`: an optional leading plus sign followed by
one or more decimal digits. -/
def rust_parse_usize (s : String) : Option Nat :=
  match s.data with
  | [] => none
  | c :: rest => if c == '+' then parse_digits rest else parse_digits s.data

/-- Input::parse_specifier from parse.rs lines 262-281: join the remaining
tokens with spaces; without a leading dollar sign the result is a card name,
with one the remainder must be a usize index. -/
def parse_specifier (parts : List String) : Except String Specifier :=
  if parts.isEmpty then .error "missing card specifier"
  else
    let spec := join_spaces parts
    match spec.data with
    | '$' :: rest =>
      match rust_parse_usize ⟨rest⟩ with
      | some i => .ok (.Index i)
      | none => .error ("`" ++ spec ++ "` is not numeric after the `$`")
    | _ => .ok (.CardName spec)

/-- Input::parse_draw from parse.rs lines 66-84. -/
def parse_draw (parts : List String) : Except String Statement :=
  match parts with
  | [] => .ok (.Draw 1)
  | [tok] =>
    match rust_parse_usize tok with
    | some count => .ok (.Draw count)
    | none => .error ("`" ++ tok ++ "` is not a valid numeric count for `draw`")
  | _ => .error "`draw` needs a single-word count"

/-- Input::parse_inspect from parse.rs lines 120-138. -/
def parse_inspect (parts : List String) : Except String Statement :=
  match parts with
  | [] => .ok (.Inspect 1)
  | [tok] =>
    match rust_parse_usize tok with
    | some count => .ok (.Inspect count)
    | none => .error ("`" ++ tok ++ "` is not a valid numeric count for `inspect`")
  | _ => .error "`inspect` needs a single-word count"

/-- Input::parse_mill from parse.rs lines 144-158: exactly one token required. -/
def parse_mill (parts : List String) : Except String Statement :=
  match parts with
  | [tok] =>
    match rust_parse_usize tok with
    | some count => .ok (.Mill count)
    | none => .error ("`" ++ tok ++ "` is not a valid numeric count for `mill`")
  | _ => .error "`mill` needs a single word count"

/-- Input::parse_exile from parse.rs lines 86-106. -/
def parse_exile (parts : List String) : Except String Statement :=
  match split_off_at parts "from" with
  | none => .error "`exile` needs to specify source with `from`"
  | some (kept, source) =>
    match source with
    | [] => .error "`exile` needs source after `from`"
    | [s] => do
      let fr ← ZoneType.parse s
      let card ← parse_specifier kept
      return Statement.Exile card fr
    | _ => .error "`exile` needs a single-word source"

/-- Input::parse_move from parse.rs lines 160-196: split at the last `to` for
the destination, then at the last `from` among the remaining tokens for the
source; each clause must be a single token; the leftover prefix is the card
specifier. -/
def parse_move (parts : List String) : Except String Statement :=
  match split_off_at parts "to" with
  | none => .error "`move` needs to specify destination with `to`"
  | some (kept1, destination) =>
    match destination with
    | [] => .error "`move` needs destination after `to`"
    | [d] => do
      let dst ← ZoneType.parse d
      match split_off_at kept1 "from" with
      | none => .error "`move` needs to specify source with `from`"
      | some (kept2, source) =>
        match source with
        | [] => .error "`move` needs source after `from`"
        | [s] => do
          let fr ← ZoneType.parse s
          let card ← parse_specifier kept2
          return Statement.Move card fr dst
        | _ => .error "`move` needs a single-word source"
    | _ => .error "`move` needs a single-word destination"

/-- Input::parse_tuck from parse.rs lines 236-256. -/
def parse_tuck (parts : List String) : Except String Statement :=
  match split_off_at parts "from" with
  | none => .error "`tuck` needs to specify source with `from`"
  | some (kept, source) =>
    match source with
    | [] => .error "`tuck` needs source after `from`"
    | [s] => do
      let fr ← ZoneType.parse s
      let card ← parse_specifier kept
      return Statement.Tuck card fr
    | _ => .error "`tuck` needs a single-word source"

/-- Input::parse_help from parse.rs lines 112-118 (message text embedded
without the contraction of the source). -/
def parse_help (parts : List String) : Except String Statement :=
  if parts.isEmpty then .ok .Help
  else .error "`help` should not have any words following it"

/-- Input::parse_restart from parse.rs lines 216-222. -/
def parse_restart (parts : List String) : Except String Statement :=
  if parts.isEmpty then .ok .Restart
  else .error "`restart` should not have any words following it"

/-- Input::parse_shuffle from parse.rs lines 228-234. -/
def parse_shuffle (parts : List String) : Except String Statement :=
  if parts.isEmpty then .ok .Shuffle
  else .error "`shuffle` should not have any words following it"

/-- Input::parse_print from parse.rs lines 202-214. -/
def parse_print (parts : List String) : Except String Statement :=
  match parts with
  | [] => .ok (.Print .Default)
  | [tok] => do
    let target ← PrintTarget.parse tok
    return Statement.Print target
  | _ => .error "`print` either needs no target or a one-word target"

/-- Input::parse from parse.rs lines 29-56: empty input is a Nop, the first
token is the case-sensitive verb, and the rest goes to the per-verb parser. -/
def parse (input : String) : Except String Statement :=
  match tokenize input with
  | [] => .ok .Nop
  | verb :: rest =>
    match verb with
    | "bounce" => do
      let card ← parse_specifier rest
      return Statement.Bounce card
    | "discard" => do
      let card ← parse_specifier rest
      return Statement.Discard card
    | "draw" => parse_draw rest
    | "exile" => parse_exile rest
    | "fetch" => .ok (.Fetch (join_spaces rest))
    | "help" => parse_help rest
    | "inspect" => parse_inspect rest
    | "load" => .ok (.Load (join_spaces rest))
    | "mill" => parse_mill rest
    | "move" => parse_move rest
    | "play" => do
      let card ← parse_specifier rest
      return Statement.Play card
    | "print" => parse_print rest
    | "restart" => parse_restart rest
    | "sac" => do
      let card ← parse_specifier rest
      return Statement.Sacrifice card
    | "shuffle" => parse_shuffle rest
    | "tuck" => parse_tuck rest
    | "tutor" => .ok (.Tutor (join_spaces rest))
    | other => .error ("`" ++ other ++ "` is not a known verb")

/-- Goldfish::exec statement dispatch (lib.rs): each parsed statement mapped to
its State operation. Load replaces the whole state via new_state_from_file,
whose file reading is outside the core and is supplied as the oracle ld
(none modelling a failed load, which leaves the old state in place). Help,
Inspect and Print only write to the terminal. -/
def run (sh : List Card → List Card) (ld : String → Option State)
    (stmt : Statement) (st : State) : Option String × State :=
  match stmt with
  | .Nop => (none, st)
  | .Bounce card => st.bounce card
  | .Discard card => st.discard card
  | .Draw n => st.draw_n n
  | .Exile card fr => st.exile_card card fr
  | .Fetch name => st.fetch sh name
  | .Help => (none, st)
  | .Inspect _ => (none, st)
  | .Load file =>
    match ld file with
    | some st2 => (none, st2)
    | none => (some "load failure", st)
  | .Mill n => st.mill n
  | .Move card fr dst => st.move_card card fr dst
  | .Play card => st.play card
  | .Print _ => (none, st)
  | .Restart => st.start_new_game sh
  | .Sacrifice card => st.sacrifice card
  | .Shuffle => (none, st.shuffle sh)
  | .Tuck card fr => st.tuck card fr
  | .Tutor name => st.tutor sh name

/-- Goldfish::exec from lib.rs: parse the line first; a parse error returns
before any state operation runs, so the state is handed back unchanged. -/
def exec (sh : List Card → List Card) (ld : String → Option State)
    (input : String) (st : State) : Option String × State :=
  match parse input with
  | .error e => (some e, st)
  | .ok stmt => run sh ld stmt st

/-- Example card: an instant, hence not a permanent. -/
def shock : Card := ⟨"Shock", [CardType.Instant]⟩

/-- Example card: a land, hence a permanent. -/
def forest : Card := ⟨"Forest", [CardType.Land]⟩

/-- Example card: a creature, hence a permanent. -/
def elf : Card := ⟨"Llanowar Elves", [CardType.Creature]⟩

/-- The whitespace-insensitive name normalization that the specification
describes (lowercase, then collapse every whitespace run and trim the ends),
stated separately so it can be compared against the is_named the code uses. -/
def spec_name_normalize (s : String) : String :=
  join_spaces (words_aux (lowercase_chars s.data) [])

/-! ### Supporting lemmas about zone removal -/

theorem remove_card_by_index_none_iff (i : Nat) (zs : List Card) :
    Zone.remove_card_by_index i zs = none ↔ zs.length ≤ i := by
  unfold Zone.remove_card_by_index
  split <;> simp <;> omega

theorem remove_card_by_index_some (i : Nat) (zs : List Card) (h : i < zs.length) :
    Zone.remove_card_by_index i zs = some (zs[i], zs.take i ++ zs.drop (i + 1)) := by
  simp [Zone.remove_card_by_index, h, List.eraseIdx_eq_take_drop_succ]

theorem remove_card_by_name_none_iff (name : String) (zs : List Card) :
    Zone.remove_card_by_name name zs = none ↔ ∀ c ∈ zs, c.is_named name = false := by
  induction zs with
  | nil => simp [Zone.remove_card_by_name]
  | cons c rest ih =>
    by_cases hc : c.is_named name = true
    · simp [Zone.remove_card_by_name, hc]
    · have hc' : c.is_named name = false := by simpa using hc
      cases hrec : Zone.remove_card_by_name name rest with
      | none =>
        have hall : ∀ b ∈ rest, b.is_named name = false := ih.mp hrec
        simp only [Zone.remove_card_by_name, hc', Bool.false_eq_true, if_false, hrec,
          true_iff]
        intro b hb
        rcases List.mem_cons.mp hb with hb | hb
        · exact hb ▸ hc'
        · exact hall b hb
      | some pr =>
        obtain ⟨x, r2⟩ := pr
        have hnall : ¬ ∀ b ∈ rest, b.is_named name = false := by
          rw [← ih, hrec]; simp
        simp only [Zone.remove_card_by_name, hc', Bool.false_eq_true, if_false, hrec,
          reduceCtorEq, false_iff]
        intro hall
        exact hnall fun b hb => hall b (List.mem_cons_of_mem c hb)

theorem remove_card_by_name_some (name : String) (zs : List Card) (c : Card)
    (zs' : List Card) (h : Zone.remove_card_by_name name zs = some (c, zs')) :
    ∃ pre post, zs = pre ++ c :: post ∧ zs' = pre ++ post
      ∧ c.is_named name = true ∧ ∀ b ∈ pre, b.is_named name = false := by
  induction zs generalizing c zs' with
  | nil => simp [Zone.remove_card_by_name] at h
  | cons d rest ih =>
    by_cases hd : d.is_named name = true
    · simp only [Zone.remove_card_by_name, if_pos hd, Option.some.injEq,
        Prod.mk.injEq] at h
      obtain ⟨h1, h2⟩ := h
      subst h1; subst h2
      exact ⟨[], rest, rfl, rfl, hd, by simp⟩
    · have hd' : d.is_named name = false := by simpa using hd
      cases hrec : Zone.remove_card_by_name name rest with
      | none => simp [Zone.remove_card_by_name, hd', hrec] at h
      | some pr =>
        obtain ⟨found, rest2⟩ := pr
        simp only [Zone.remove_card_by_name, hd', Bool.false_eq_true, if_false, hrec,
          Option.some.injEq, Prod.mk.injEq] at h
        obtain ⟨h1, h2⟩ := h
        obtain ⟨pre, post, g1, g2, g3, g4⟩ := ih found rest2 hrec
        refine ⟨d :: pre, post, ?_, ?_, ?_, ?_⟩
        · rw [← h1]; simp [g1]
        · rw [← h2]; simp [g2]
        · rw [← h1]; exact g3
        · intro b hb
          rcases List.mem_cons.mp hb with hb | hb
          · exact hb ▸ hd'
          · exact g4 b hb

theorem remove_card_some_length (spec : Specifier) (zs : List Card) (c : Card)
    (zs' : List Card) (h : Zone.remove_card spec zs = some (c, zs')) :
    zs'.length + 1 = zs.length := by
  cases spec with
  | CardName name =>
    obtain ⟨pre, post, h1, h2, _, _⟩ :=
      remove_card_by_name_some name zs c zs' h
    subst h1; subst h2
    simp [List.length_append]
    omega
  | Index i =>
    simp only [Zone.remove_card] at h
    by_cases hi : i < zs.length
    · rw [remove_card_by_index_some i zs hi] at h
      simp only [Option.some.injEq, Prod.mk.injEq] at h
      obtain ⟨h1, h2⟩ := h
      subst h2
      simp [List.length_append, List.length_take, List.length_drop]
      omega
    · rw [(remove_card_by_index_none_iff i zs).mpr (by omega)] at h
      exact absurd h (by simp)

theorem total_count_set_zone (st : State) (z : ZoneType) (cs : List Card) :
    (st.set_zone z cs).total_count + (st.get_zone z).length
      = st.total_count + cs.length := by
  cases z <;> simp [State.set_zone, State.get_zone, State.total_count] <;> omega

/-! ### Supporting lemmas about drawing and restarting -/

theorem draw_of_deck_nil (st : State) (h : st.deck = []) :
    st.draw = (some "not found!", st) := by
  simp [State.draw, State.move_card, State.get_zone, Zone.remove_card,
    Zone.remove_card_by_index, h]

theorem draw_of_deck_cons (st : State) (c : Card) (rest : List Card)
    (h : st.deck = c :: rest) :
    st.draw = (none, { st with deck := rest, hand := st.hand ++ [c] }) := by
  simp [State.draw, State.move_card, State.get_zone, State.set_zone, Zone.remove_card,
    Zone.remove_card_by_index, h]

theorem draw_n_spec (n : Nat) (st : State) :
    st.draw_n n
      = (if n ≤ st.deck.length then none else some "not found!",
         { st with deck := st.deck.drop n, hand := st.hand ++ st.deck.take n }) := by
  induction n generalizing st with
  | zero =>
    obtain ⟨bf, dk, ex, gy, hd⟩ := st
    simp [State.draw_n]
  | succ n ih =>
    cases hd : st.deck with
    | nil =>
      obtain ⟨bf, dk, ex, gy, hand⟩ := st
      subst hd
      rw [State.draw_n, draw_of_deck_nil _ rfl]
      simp
    | cons c rest =>
      rw [State.draw_n, draw_of_deck_cons st c rest hd]
      dsimp only
      rw [ih]
      simp only [hd]
      obtain ⟨bf, dk, ex, gy, hand⟩ := st
      simp only [List.length_cons, List.drop_succ_cons, List.take_succ_cons]
      simp [Nat.succ_le_succ_iff, List.append_assoc]

theorem start_new_game_spec (st : State) (sh : List Card → List Card)
    (hsh : ∀ l, (sh l).Perm l) :
    st.start_new_game sh
      = (if 7 ≤ st.total_count then none else some "not found!",
         ⟨[], (sh st.all_cards).drop 7, [], [], (sh st.all_cards).take 7⟩) := by
  have hlen : (sh st.all_cards).length = st.total_count := by
    rw [(hsh st.all_cards).length_eq]
    simp [State.all_cards, State.total_count]
    omega
  rw [State.start_new_game]
  simp only [State.shuffle, State.set_zone, State.get_zone]
  rw [draw_n_spec]
  simp [hlen]

/-! ### Supporting lemmas about the parser -/

theorem split_off_at_of_not_mem (parts : List String) (item : String)
    (h : item ∉ parts) : split_off_at parts item = none := by
  induction parts with
  | nil => rfl
  | cons p ps ih =>
    rw [List.mem_cons, not_or] at h
    rw [split_off_at, ih h.2]
    simp only [if_neg (Ne.symm h.1)]

theorem split_off_at_last (A B : List String) (item : String) (h : item ∉ B) :
    split_off_at (A ++ item :: B) item = some (A, B) := by
  induction A with
  | nil => simp [split_off_at, split_off_at_of_not_mem B item h]
  | cons p ps ih => simp [split_off_at, ih]

/-! ### Claim theorems -/

/-- Claim C1 (code bug exhibit). The claim says every command except load and
restart conserves the total card count across all zones even when it fails,
but executing the move command with destination battlefield on a non-permanent
destroys the moved card: on the state whose hand holds only the instant Shock,
the move command fails and the total count drops from 1 to 0. -/
theorem C1_conservation_violated_by_move :
    (⟨[], [], [], [], [shock]⟩ : State).total_count = 1
    ∧ (run id (fun _ => none) (.Move (.Index 0) .Hand .Battlefield)
        ⟨[], [], [], [], [shock]⟩).1.isSome = true
    ∧ (run id (fun _ => none) (.Move (.Index 0) .Hand .Battlefield)
        ⟨[], [], [], [], [shock]⟩).2.total_count = 0 := by
  decide

/-- Claim C2 (code bug exhibit). The claim says a failing command other than
draw_n and mill leaves the GameState unchanged and in particular that moving
the instant at hand index 0 to the battlefield fails with Hand unchanged; the
code does fail there, but the card has already been removed from the hand and
is destroyed, while the same command on a land succeeds and relocates it. -/
theorem C2_failed_move_mutates_state :
    exec id (fun _ => none) "move $0 from hand to battlefield"
        ⟨[], [], [], [], [shock]⟩
      = (some "cannot move Shock to the battlefield because it is not a permanent",
         ⟨[], [], [], [], []⟩)
    ∧ exec id (fun _ => none) "move $0 from hand to battlefield"
        ⟨[], [], [], [], [forest]⟩
      = (none, ⟨[forest], [], [], [], []⟩) := by
  decide

/-- Claim C3 counterexample. With the battlefield itself as the source zone
the claim as stated fails: on the state whose battlefield holds the
non-permanent Shock, the specifier resolves to Shock in the source zone and
the destination is Battlefield, yet move_card returns success as a no-op and
the total count does not decrease. -/
theorem C3_counterexample_battlefield_source :
    Zone.remove_card (.Index 0)
        ((⟨[shock], [], [], [], []⟩ : State).get_zone .Battlefield) = some (shock, [])
    ∧ shock.is_permanent = false
    ∧ (⟨[shock], [], [], [], []⟩ : State).move_card (.Index 0) .Battlefield .Battlefield
      = (none, ⟨[shock], [], [], [], []⟩) := by
  decide

/-- Claim C3 (amended: source zone other than Battlefield). For every state,
every specifier that resolves to a card of the source zone, and every source
zone other than Battlefield, move_card with destination Battlefield on a
non-permanent card returns an error after removing the card from the source
zone and appending it to no zone, so the total card count drops by one. -/
theorem C3_nonpermanent_to_battlefield (st : State) (spec : Specifier)
    (fr : ZoneType) (c : Card) (rest : List Card) (hfr : fr ≠ .Battlefield)
    (hrem : Zone.remove_card spec (st.get_zone fr) = some (c, rest))
    (hperm : c.is_permanent = false) :
    (st.move_card spec fr .Battlefield).1.isSome = true
    ∧ (st.move_card spec fr .Battlefield).2 = st.set_zone fr rest
    ∧ (st.move_card spec fr .Battlefield).2.total_count + 1 = st.total_count := by
  have hcond : ¬ (fr = ZoneType.Battlefield ∧ ZoneType.Battlefield ≠ ZoneType.Deck) := by
    simp [hfr]
  have hlen := remove_card_some_length spec (st.get_zone fr) c rest hrem
  have htot := total_count_set_zone st fr rest
  simp only [State.move_card]
  rw [if_neg hcond]
  simp only [hrem]
  rw [if_pos (And.intro trivial hperm)]
  refine ⟨rfl, rfl, ?_⟩
  dsimp only
  omega

/-- Concrete instance of C3_nonpermanent_to_battlefield, with Hand as the
source zone holding the single instant Shock. -/
theorem C3_nonpermanent_to_battlefield_witness :
    ((⟨[], [], [], [], [shock]⟩ : State).move_card
        (.Index 0) .Hand .Battlefield).1.isSome = true
    ∧ ((⟨[], [], [], [], [shock]⟩ : State).move_card
        (.Index 0) .Hand .Battlefield).2.total_count + 1
      = (⟨[], [], [], [], [shock]⟩ : State).total_count := by
  have h := C3_nonpermanent_to_battlefield ⟨[], [], [], [], [shock]⟩ (.Index 0) .Hand
    shock [] (by decide) (by decide) (by decide)
  exact ⟨h.1, h.2.2⟩

/-- Claim C4: specifier resolution against a zone of length L: ByIndex i fails
exactly when i is at least L and otherwise removes precisely the card at
position i with every other card keeping its relative order; ByName removes
the first card, scanning front to back, whose normalized name matches, and
fails exactly when no card matches; every successful removal shrinks the zone
by exactly one element (and a failing one returns the zone unchanged by
construction of the embedding). -/
theorem C4_remove_card_resolution (name : String) (i : Nat) (zs : List Card) :
    (Zone.remove_card_by_index i zs = none ↔ zs.length ≤ i)
    ∧ (∀ h : i < zs.length,
        Zone.remove_card_by_index i zs = some (zs[i], zs.take i ++ zs.drop (i + 1)))
    ∧ (Zone.remove_card_by_name name zs = none ↔ ∀ c ∈ zs, c.is_named name = false)
    ∧ (∀ c zs', Zone.remove_card_by_name name zs = some (c, zs') →
        ∃ pre post, zs = pre ++ c :: post ∧ zs' = pre ++ post
          ∧ c.is_named name = true ∧ ∀ b ∈ pre, b.is_named name = false)
    ∧ (∀ (spec : Specifier) (c : Card) (zs' : List Card),
        Zone.remove_card spec zs = some (c, zs') → zs'.length + 1 = zs.length) :=
  ⟨remove_card_by_index_none_iff i zs,
    fun h => remove_card_by_index_some i zs h,
    remove_card_by_name_none_iff name zs,
    fun c zs' h => remove_card_by_name_some name zs c zs' h,
    fun spec c zs' h => remove_card_some_length spec zs c zs' h⟩

/-- Concrete instance of C4_remove_card_resolution: index 2 against a 3-card
zone removes the third card, and against a 2-card zone it fails. -/
theorem C4_remove_card_resolution_witness :
    Zone.remove_card_by_index 2 [shock, forest, elf]
      = some ([shock, forest, elf][2],
          [shock, forest, elf].take 2 ++ [shock, forest, elf].drop 3)
    ∧ Zone.remove_card_by_index 2 [shock, forest] = none := by
  constructor
  · exact (C4_remove_card_resolution "x" 2 [shock, forest, elf]).2.1 (by decide)
  · exact (C4_remove_card_resolution "x" 2 [shock, forest]).1.mpr (by decide)

/-- Claim C5: play removes the resolved card from Hand and appends it at the
end of the Battlefield when at least one of its types is a permanent type
(Artifact, Creature, Enchantment, Land, Planeswalker) and at the end of the
Graveyard otherwise; when the specifier does not resolve, play fails and the
state is unchanged. -/
theorem C5_play_routing (st : State) (spec : Specifier) :
    (∀ c rest, Zone.remove_card spec st.hand = some (c, rest) →
        st.play spec
          = (none,
             if c.is_permanent then
               { st with hand := rest, battlefield := st.battlefield ++ [c] }
             else
               { st with hand := rest, graveyard := st.graveyard ++ [c] }))
    ∧ (Zone.remove_card spec st.hand = none → st.play spec = (some "not found!", st))
    ∧ (∀ c : Card, c.is_permanent = true ↔
        ∃ t ∈ c.types, t = CardType.Artifact ∨ t = CardType.Creature
          ∨ t = CardType.Enchantment ∨ t = CardType.Land ∨ t = CardType.Planeswalker) := by
  refine ⟨?_, ?_, ?_⟩
  · intro c rest h
    simp only [State.play, State.get_zone, h, State.play_card]
    by_cases hp : c.is_permanent
    · obtain ⟨bf, dk, ex, gy, hand⟩ := st
      simp [hp, State.set_zone, State.get_zone]
    · obtain ⟨bf, dk, ex, gy, hand⟩ := st
      simp [hp, State.set_zone, State.get_zone]
  · intro h
    simp only [State.play, State.get_zone, h]
  · intro c
    simp only [Card.is_permanent, List.any_eq_true]
    constructor
    · rintro ⟨t, ht, hperm⟩
      refine ⟨t, ht, ?_⟩
      cases t <;> simp_all [CardType.is_permanent]
    · rintro ⟨t, ht, hperm⟩
      refine ⟨t, ht, ?_⟩
      rcases hperm with rfl | rfl | rfl | rfl | rfl <;> rfl

/-- Concrete instances of C5_play_routing: playing the land at hand index 0
puts it on the battlefield, playing an instant puts it in the graveyard. -/
theorem C5_play_routing_witness :
    (⟨[], [], [], [], [forest, shock]⟩ : State).play (.Index 0)
      = (none, ⟨[forest], [], [], [], [shock]⟩)
    ∧ (⟨[], [], [], [], [shock, forest]⟩ : State).play (.Index 0)
      = (none, ⟨[], [], [], [shock], [forest]⟩) := by
  constructor
  · rw [(C5_play_routing ⟨[], [], [], [], [forest, shock]⟩ (.Index 0)).1 forest [shock]
      (by decide)]
    rfl
  · rw [(C5_play_routing ⟨[], [], [], [], [shock, forest]⟩ (.Index 0)).1 shock [forest]
      (by decide)]
    rfl

/-- Claim C6: draw_n moves min(n, deck length) cards one at a time from the
front of the deck to the end of the hand in deck order, then fails exactly
when n exceeds the deck size, without rolling back the draws already made, so
the hand gains exactly min(n, deck length) cards and the other zones are
untouched. -/
theorem C6_draw_n_partial_progress (st : State) (n : Nat) :
    st.draw_n n
      = (if n ≤ st.deck.length then none else some "not found!",
         { st with deck := st.deck.drop n, hand := st.hand ++ st.deck.take n })
    ∧ (st.draw_n n).2.hand.length = st.hand.length + min n st.deck.length := by
  obtain ⟨bf, dk, ex, gy, hand⟩ := st
  refine ⟨draw_n_spec n _, ?_⟩
  rw [draw_n_spec]
  simp [List.length_take]

/-- Claim C7 helper: one start_new_game call from any state with at least 7
cards succeeds, leaving 7 cards in hand, everything else in the deck, the
other zones empty, and the total unchanged. -/
theorem start_new_game_props (sh : List Card → List Card)
    (hsh : ∀ l, (sh l).Perm l) (st : State) (h7 : 7 ≤ st.total_count) :
    (st.start_new_game sh).1 = none
    ∧ (st.start_new_game sh).2.hand.length = 7
    ∧ (st.start_new_game sh).2.battlefield = []
    ∧ (st.start_new_game sh).2.graveyard = []
    ∧ (st.start_new_game sh).2.exile = []
    ∧ (st.start_new_game sh).2.deck.length = st.total_count - 7
    ∧ (st.start_new_game sh).2.total_count = st.total_count := by
  have hlen : (sh st.all_cards).length = st.total_count := by
    rw [(hsh st.all_cards).length_eq]
    simp [State.all_cards, State.total_count]
    omega
  rw [start_new_game_spec st sh hsh]
  dsimp only
  rw [if_pos h7]
  refine ⟨rfl, ?_, rfl, rfl, rfl, ?_, ?_⟩
  · simp only [List.length_take, hlen]
    omega
  · simp only [List.length_drop, hlen]
  · simp only [State.total_count, List.length_take, List.length_drop,
      List.length_nil, hlen]
    omega

/-- Claim C7: with at least 7 cards in total, start_new_game succeeds and
yields exactly 7 cards in Hand, empty Battlefield, Graveyard and Exile, and
all remaining cards in the Deck, and the same holds when start_new_game is
called a second time in a row; with fewer than 7 cards in total it fails,
surfacing the failing draw. -/
theorem C7_start_new_game_round_trip (sh : List Card → List Card)
    (hsh : ∀ l, (sh l).Perm l) (st : State) :
    (7 ≤ st.total_count →
      (st.start_new_game sh).1 = none
      ∧ (st.start_new_game sh).2.hand.length = 7
      ∧ (st.start_new_game sh).2.battlefield = []
      ∧ (st.start_new_game sh).2.graveyard = []
      ∧ (st.start_new_game sh).2.exile = []
      ∧ (st.start_new_game sh).2.deck.length = st.total_count - 7
      ∧ ((st.start_new_game sh).2.start_new_game sh).1 = none
      ∧ ((st.start_new_game sh).2.start_new_game sh).2.hand.length = 7
      ∧ ((st.start_new_game sh).2.start_new_game sh).2.battlefield = []
      ∧ ((st.start_new_game sh).2.start_new_game sh).2.graveyard = []
      ∧ ((st.start_new_game sh).2.start_new_game sh).2.exile = [])
    ∧ (st.total_count < 7 → (st.start_new_game sh).1 = some "not found!") := by
  constructor
  · intro h7
    obtain ⟨a1, a2, a3, a4, a5, a6, a7⟩ := start_new_game_props sh hsh st h7
    obtain ⟨b1, b2, b3, b4, b5, _, _⟩ :=
      start_new_game_props sh hsh (st.start_new_game sh).2 (by omega)
    exact ⟨a1, a2, a3, a4, a5, a6, b1, b2, b3, b4, b5⟩
  · intro hlt
    rw [start_new_game_spec st sh hsh]
    dsimp only
    rw [if_neg (by omega)]

/-- Concrete instance of C7_start_new_game_round_trip on an 8-card deck with
the identity permutation as the shuffle. -/
theorem C7_start_new_game_round_trip_witness :
    ((⟨[], [forest, forest, forest, forest, forest, forest, forest, forest],
        [], [], []⟩ : State).start_new_game id).1 = none
    ∧ ((⟨[], [forest, forest, forest, forest, forest, forest, forest, forest],
        [], [], []⟩ : State).start_new_game id).2.hand.length = 7
    ∧ ((⟨[], [forest, forest, forest, forest, forest, forest, forest, forest],
        [], [], []⟩ : State).start_new_game id).2.deck.length = 1 := by
  have h := (C7_start_new_game_round_trip id (fun l => List.Perm.refl l)
    ⟨[], [forest, forest, forest, forest, forest, forest, forest, forest],
      [], [], []⟩).1 (by decide)
  exact ⟨h.1, h.2.1, h.2.2.2.2.2.1⟩

/-- Claim C8: a self-move within any zone other than the deck succeeds as a
no-op even when the specifier resolves to nothing, while a deck-to-deck move
proceeds normally, removing the specified card from the deck and appending it
at the end (and failing when the specifier does not resolve). -/
theorem C8_self_move (st : State) (spec : Specifier) :
    (∀ z : ZoneType, z ≠ .Deck → st.move_card spec z z = (none, st))
    ∧ (∀ c rest, Zone.remove_card spec st.deck = some (c, rest) →
        st.move_card spec .Deck .Deck = (none, { st with deck := rest ++ [c] }))
    ∧ (Zone.remove_card spec st.deck = none →
        st.move_card spec .Deck .Deck = (some "not found!", st)) := by
  refine ⟨?_, ?_, ?_⟩
  · intro z hz
    simp [State.move_card, hz]
  · intro c rest h
    rw [State.move_card.eq_def]
    rw [if_neg (by simp)]
    simp only [State.get_zone, h]
    rw [if_neg (by simp)]
    obtain ⟨bf, dk, ex, gy, hand⟩ := st
    simp [State.set_zone, State.get_zone]
  · intro h
    rw [State.move_card.eq_def]
    rw [if_neg (by simp)]
    simp only [State.get_zone, h]

/-- Concrete instances of C8_self_move: a hand-to-hand move with an
unresolvable name is a successful no-op; a deck-to-deck move of index 0 sends
the top card to the bottom. -/
theorem C8_self_move_witness :
    (⟨[], [shock, forest], [], [], []⟩ : State).move_card (.CardName "x") .Hand .Hand
      = (none, ⟨[], [shock, forest], [], [], []⟩)
    ∧ (⟨[], [shock, forest], [], [], []⟩ : State).move_card (.Index 0) .Deck .Deck
      = (none, ⟨[], [forest, shock], [], [], []⟩) := by
  constructor
  · exact (C8_self_move ⟨[], [shock, forest], [], [], []⟩ (.CardName "x")).1 .Hand
      (by decide)
  · rw [(C8_self_move ⟨[], [shock, forest], [], [], []⟩ (.Index 0)).2.1 shock [forest]
      (by decide)]
    rfl

/-- Claim C9: for a move line the parser takes the destination to be the single
token after the last occurrence of the token `to`, and the source to be the
single token after the last occurrence of `from` among the tokens before that;
a missing keyword is an error naming the absent keyword, in particular
`move $1 to hand` is rejected naming `from`; and a parse failure produces no
command and leaves the game state untouched. -/
theorem C9_move_grammar :
    (∀ (C : List String) (y z : String) (zy zz : ZoneType) (sp : Specifier),
        y ≠ "from" → z ≠ "to" →
        ZoneType.parse y = .ok zy → ZoneType.parse z = .ok zz →
        parse_specifier C = .ok sp →
        parse_move (C ++ ["from", y, "to", z]) = .ok (.Move sp zy zz))
    ∧ (∀ parts : List String, "to" ∉ parts →
        parse_move parts = .error "`move` needs to specify destination with `to`")
    ∧ (∀ (C : List String) (z : String) (zz : ZoneType), z ≠ "to" → "from" ∉ C →
        ZoneType.parse z = .ok zz →
        parse_move (C ++ ["to", z])
          = .error "`move` needs to specify source with `from`")
    ∧ (∀ (input : String) (rest : List String), tokenize input = "move" :: rest →
        parse input = parse_move rest)
    ∧ parse "move $1 to hand" = .error "`move` needs to specify source with `from`"
    ∧ (∀ (sh : List Card → List Card) (ld : String → Option State) (input : String)
        (st : State) (e : String),
        parse input = .error e → exec sh ld input st = (some e, st)) := by
  refine ⟨?_, ?_, ?_, ?_, ?_, ?_⟩
  · intro C y z zy zz sp hy hz hpy hpz hps
    have e1 : split_off_at (C ++ ["from", y, "to", z]) "to"
        = some (C ++ ["from", y], [z]) := by
      have h1 : C ++ ["from", y, "to", z] = (C ++ ["from", y]) ++ "to" :: [z] := by
        simp
      rw [h1]
      exact split_off_at_last _ _ _
        (by simp only [List.mem_singleton]; exact fun h => hz h.symm)
    have e2 : split_off_at (C ++ ["from", y]) "from" = some (C, [y]) := by
      have h2 : C ++ ["from", y] = C ++ "from" :: [y] := by simp
      rw [h2]
      exact split_off_at_last _ _ _
        (by simp only [List.mem_singleton]; exact fun h => hy h.symm)
    simp [parse_move, e1, e2, hpy, hpz, hps, bind, Except.bind, pure, Except.pure]
  · intro parts hto
    simp [parse_move, split_off_at_of_not_mem parts "to" hto]
  · intro C z zz hz hfrom hpz
    have e1 : split_off_at (C ++ ["to", z]) "to" = some (C, [z]) := by
      have h1 : C ++ ["to", z] = C ++ "to" :: [z] := by simp
      rw [h1]
      exact split_off_at_last _ _ _
        (by simp only [List.mem_singleton]; exact fun h => hz h.symm)
    simp [parse_move, e1, hpz, split_off_at_of_not_mem C "from" hfrom, bind,
      Except.bind]
  · intro input rest h
    simp [parse, h]
  · rfl
  · intro sh ld input st e h
    simp [exec, h]

/-- Concrete instances of C9_move_grammar: a full move line parses with the
rightmost keywords as delimiters, and a line missing `from` is rejected with
the error that names `from`. -/
theorem C9_move_grammar_witness :
    parse_move (["Lightning", "Bolt"] ++ ["from", "hand", "to", "exile"])
      = .ok (.Move (.CardName "Lightning Bolt") .Hand .Exile)
    ∧ parse_move (["$1"] ++ ["to", "hand"])
      = .error "`move` needs to specify source with `from`" := by
  constructor
  · exact C9_move_grammar.1 ["Lightning", "Bolt"] "hand" "exile" .Hand .Exile
      (.CardName "Lightning Bolt") (by decide) (by decide) rfl rfl rfl
  · exact C9_move_grammar.2.2.1 ["$1"] "hand" .Hand (by decide) (by decide) rfl

/-- Claim C10 counterexample: the stored name differs from the query only in
internal whitespace; the whitespace-collapsing normalization the claim
describes identifies the two, and yet is_named rejects the pair and by-name
removal does not find the card. -/
theorem C10_counterexample_internal_whitespace :
    spec_name_normalize "Fire  Ball" = spec_name_normalize "fire ball"
    ∧ Card.is_named ⟨"Fire  Ball", [CardType.Sorcery]⟩ "fire ball" = false
    ∧ Zone.remove_card_by_name "fire ball" [⟨"Fire  Ball", [CardType.Sorcery]⟩]
      = none := by
  decide

/-- Claim C10 (amended): name comparison treats two names as equal exactly
when their trimmed lowercased forms are equal, so by-name lookup is
insensitive to letter case and to surrounding whitespace, while internal
whitespace must match exactly; a card whose trimmed lowercased name equals
that of the query is found by by-name removal. -/
theorem C10_name_normalization (c : Card) (n : String) (zone : List Card) :
    (c.is_named n = true ↔ normalize_chars c.name.data = normalize_chars n.data)
    ∧ (c ∈ zone → normalize_chars c.name.data = normalize_chars n.data →
        (Zone.remove_card_by_name n zone).isSome = true) := by
  constructor
  · simp [Card.is_named]
  · intro hmem hnorm
    cases hrem : Zone.remove_card_by_name n zone with
    | some pr => rfl
    | none =>
      have hall := (remove_card_by_name_none_iff n zone).mp hrem
      have hc := hall c hmem
      simp [Card.is_named, hnorm] at hc

/-- Concrete instance of C10_name_normalization: a query differing from the
stored name only in case and surrounding whitespace still finds the card. -/
theorem C10_name_normalization_witness :
    (Zone.remove_card_by_name " LLANOWAR elves  " [shock, elf]).isSome = true :=
  (C10_name_normalization elf " LLANOWAR elves  " [shock, elf]).2
    (by decide) (by decide)

end Goldfish
